import Mathlib

/-!
Verification of the SpreadOscillator bot (src/bot.py).

Shallow embedding of the pure core of `src/bot.py`: symbol normalization,
spread calculation, shortlisting, the per-candidate monitoring-tick state
update (extrema, sample count, rising-edge oscillation counting), and the
report rendering.  Python floats are modelled as rationals (ℚ); decimal
literals map to the exact decimal rational.  Fallible fetches are modelled
by `Option`, with `none` for every path that the Python code turns into a
skipped/absent result.
-/

namespace SpreadBot

/-- Python `abs` on a float, as used by `abs(spread)` in bot.py. -/
def pyAbs (q : ℚ) : ℚ := if q < 0 then -q else q

/-- Constant `SCAN_THRESHOLD = 0.2` (bot.py line 24). -/
def SCAN_THRESHOLD : ℚ := 2/10

/-- Constant `OSCILLATION_THRESHOLD = 0.5` (bot.py line 25). -/
def OSCILLATION_THRESHOLD : ℚ := 5/10

/-- Python `sym.upper()` for the ASCII symbol alphabet: uppercase each
character.  Defined structurally over the character list so that it is
kernel-evaluable. -/
def pyUpper (s : String) : String := ⟨s.data.map Char.toUpper⟩

/-- Python `s.endswith(suf)`, structurally: `suf` is a suffix of `s`. -/
def pyEndsWith (s suf : String) : Bool := List.isSuffixOf suf.data s.data

/-- Python `s[:-1]`: drop the last character. -/
def pyDropLast (s : String) : String := ⟨s.data.dropLast⟩

/-- The function `normalize(sym)` of bot.py lines 83-94.  The empty string
is the only falsy string, so `if not sym: return sym` is the empty-string
branch; then the uppercased symbol has at most one suffix rule applied,
each stripping exactly one trailing character (`s[:-1]`). -/
def normalize (sym : String) : String :=
  if sym = "" then sym
  else
    let s := pyUpper sym
    if pyEndsWith s "USDTM" then pyDropLast s
    else if pyEndsWith s "USDTP" then pyDropLast s
    else if pyEndsWith s "M" then pyDropLast s
    else s

/-- The function `calculate_spread(bin_bid, bin_ask, ku_bid, ku_ask)`
(bot.py lines 227-246).  `not all([...])` is Python float truthiness: it fires exactly
when some argument equals 0.  The tolerance literal `0.0001` is `1/10000`.
The guarded divisions have positive denominators, so the function is total
into `Option ℚ` with no exceptional path. -/
def calculate_spread (bin_bid bin_ask ku_bid ku_ask : ℚ) : Option ℚ :=
  if bin_bid = 0 ∨ bin_ask = 0 ∨ ku_bid = 0 ∨ ku_ask = 0 ∨ bin_ask ≤ 0 ∨ bin_bid ≤ 0 then
    none
  else
    let pos := ((ku_bid - bin_ask) / bin_ask) * 100
    let neg := ((ku_ask - bin_bid) / bin_bid) * 100
    if pos > 1/10000 then some pos
    else if neg < -(1/10000) then some neg
    else none

/-- The shortlist test applied to a full-scan spread sample
(bot.py line 279): `spread is not None and abs(spread) >= SCAN_THRESHOLD`. -/
def shortlisted (spread : Option ℚ) : Bool :=
  match spread with
  | none => false
  | some s => pyAbs s ≥ SCAN_THRESHOLD

/-- A best bid/ask pair as the `{"bid": ..., "ask": ...}` dicts stored by
the fetch helpers (bot.py lines 153, 220, 326). -/
structure Quote where
  bid : ℚ
  ask : ℚ
deriving Repr, DecidableEq

/-- A raw entry of the Binance batch book payload (bot.py lines 151-155).
`bidPrice`/`askPrice` is `none` when the inner `float(...)` conversion
raises, which the code turns into `continue` (the entry is skipped). -/
structure RawBookEntry where
  symbol : String
  bidPrice : Option ℚ
  askPrice : Option ℚ

/-- The body of `get_binance_book` over an already-fetched JSON list
(bot.py lines 144-162): each entry whose two prices parse is stored in the dict
`out` — with no positivity check; a parse failure skips the entry.  The
dict is modelled as a lookup function, later entries overwriting earlier
ones for the same symbol. -/
def get_binance_book (data : List RawBookEntry) : String → Option Quote :=
  data.foldl
    (fun out d =>
      match d.bidPrice, d.askPrice with
      | some b, some a => fun k => if k = d.symbol then some ⟨b, a⟩ else out k
      | _, _ => out)
    (fun _ => none)

/-- A single-symbol ticker response body, after JSON decoding.  `status`
is the HTTP status code; a field is `none` when absent from the payload.
A transport exception is modelled by passing `none` for the whole
response. -/
structure TickerResp where
  status : ℕ
  bidPrice : Option ℚ
  askPrice : Option ℚ

/-- Python `x or y` on an optional float: the first operand when it is
present and truthy (nonzero), otherwise the fallback. -/
def orFloat (a : Option ℚ) (b : ℚ) : ℚ :=
  match a with
  | some v => if v = 0 then b else v
  | none => b

/-- The function `get_binance_price` (bot.py lines 164-183): non-200 → absent;
`float(d.get("bidPrice") or 0)` via `orFloat`; a non-positive bid or ask →
absent; exceptions (response `none`) → absent. -/
def get_binance_price (resp : Option TickerResp) : Option (ℚ × ℚ) :=
  match resp with
  | none => none
  | some r =>
    if r.status ≠ 200 then none
    else if orFloat r.bidPrice 0 ≤ 0 ∨ orFloat r.askPrice 0 ≤ 0 then none
    else some (orFloat r.bidPrice 0, orFloat r.askPrice 0)

/-- A KuCoin ticker `data` object (bot.py lines 193-196), with `or`
fallback chains `bestBidPrice or bid or 0` and `bestAskPrice or ask or 0`. -/
structure KucoinResp where
  status : ℕ
  bestBidPrice : Option ℚ
  bid : Option ℚ
  bestAskPrice : Option ℚ
  ask : Option ℚ

/-- The function `get_kucoin_price_once` (bot.py lines 185-205): non-200 → absent;
non-positive bid or ask → absent; exceptions → absent. -/
def get_kucoin_price_once (resp : Option KucoinResp) : Option (ℚ × ℚ) :=
  match resp with
  | none => none
  | some r =>
    if r.status ≠ 200 then none
    else if orFloat r.bestBidPrice (orFloat r.bid 0) ≤ 0 ∨
        orFloat r.bestAskPrice (orFloat r.ask 0) ≤ 0 then none
    else some (orFloat r.bestBidPrice (orFloat r.bid 0), orFloat r.bestAskPrice (orFloat r.ask 0))

/-- One result-collection step of `threaded_kucoin_prices` (bot.py lines
215-220): the per-symbol fetch result is stored only when `bid and ask`
are both truthy (nonzero). -/
def kucoinStore (prices : String → Option Quote) (sr : String × Option KucoinResp) :
    String → Option Quote :=
  match get_kucoin_price_once sr.2 with
  | some p =>
    if p.1 ≠ 0 ∧ p.2 ≠ 0 then
      fun k => if k = sr.1 then some ⟨p.1, p.2⟩ else prices k
    else prices
  | none => prices

/-- The function `threaded_kucoin_prices` (bot.py lines 207-224): collect all
per-symbol fetch results into the `prices` dict, starting empty. -/
def threaded_kucoin_prices (resps : List (String × Option KucoinResp)) :
    String → Option Quote :=
  resps.foldl kucoinStore (fun _ => none)

/-- The per-candidate monitoring record `candidates[sym]` (bot.py lines
281-291).  `osc_timestamps` entries are modelled as (timestamp, spread)
pairs in place of the formatted string the code appends. -/
structure CandidateInfo where
  ku_sym : String
  start_spread : ℚ
  max_spread : ℚ
  min_spread : ℚ
  osc_count : ℕ
  osc_timestamps : List (String × ℚ)
  last_was_outside : Bool
  samples : ℕ
deriving Repr, DecidableEq

/-- Creation of a candidate record at shortlist time (bot.py lines
281-291): every spread field is seeded with the shortlisting spread,
`osc_count = samples = 0`, and
`last_was_outside = abs(spread) >= OSCILLATION_THRESHOLD`. -/
def mkCandidate (ku_sym : String) (spread : ℚ) : CandidateInfo :=
  { ku_sym := ku_sym
    start_spread := spread
    max_spread := spread
    min_spread := spread
    osc_count := 0
    osc_timestamps := []
    last_was_outside := decide (pyAbs spread ≥ OSCILLATION_THRESHOLD)
    samples := 0 }

/-- One monitoring-tick state update for a candidate with a valid spread
sample `s` (bot.py lines 342-356): bump `samples`, push the extremes
outward, then rising-edge oscillation detection — count a crossing
(`crossed`) exactly when `abs(s) >= OSCILLATION_THRESHOLD` now and
`last_was_outside` was false, appending to the log on a crossing; finally
record `last_was_outside`.  The sequential dict mutations of the source
are written as one record whose fields hold the final value of each key
after the tick body. -/
def updateCandidate (info : CandidateInfo) (now_ts : String) (s : ℚ) : CandidateInfo :=
  let currently_outside : Bool := decide (pyAbs s ≥ OSCILLATION_THRESHOLD)
  let crossed : Bool := currently_outside && ! info.last_was_outside
  { ku_sym := info.ku_sym
    start_spread := info.start_spread
    max_spread := if s > info.max_spread then s else info.max_spread
    min_spread := if s < info.min_spread then s else info.min_spread
    osc_count := info.osc_count + (if crossed then 1 else 0)
    osc_timestamps := info.osc_timestamps ++ (if crossed then [(now_ts, s)] else [])
    last_was_outside := currently_outside
    samples := info.samples + 1 }

/-- The whole per-candidate body of one monitoring tick (bot.py lines
330-356): if the Binance quote or the KuCoin quote is missing
(`if not b or not k: continue`) or the spread is absent
(`if spread is None: continue`), the record is left untouched; otherwise
`updateCandidate` runs on the computed spread. -/
def tickCandidate (info : CandidateInfo) (now_ts : String)
    (b k : Option Quote) : CandidateInfo :=
  match b, k with
  | some bq, some kq =>
    match calculate_spread bq.bid bq.ask kq.bid kq.ask with
    | none => info
    | some s => updateCandidate info now_ts s
  | _, _ => info

/-- Folding a whole window of valid samples through the tracker. -/
def runSamples (info : CandidateInfo) (now_ts : String) (l : List ℚ) : CandidateInfo :=
  l.foldl (fun i s => updateCandidate i now_ts s) info

/-- One report line's data for a candidate (bot.py lines 406-415): the
crossing count printed is `info['osc_count']`, the samples printed are
`info['samples']`, and only the last up to 8 log entries
(`info["osc_timestamps"][-8:]`) are shown. -/
structure ReportEntry where
  sym : String
  start_spread : ℚ
  min_spread : ℚ
  max_spread : ℚ
  crossings : ℕ
  samples : ℕ
  shown_timestamps : List (String × ℚ)
deriving Repr, DecidableEq

/-- Python `l[-8:]`: the last up to 8 elements of a list. -/
def lastUpTo8 {α : Type} (l : List α) : List α := l.drop (l.length - 8)

/-- Rendering one candidate into its report line (bot.py lines 406-415). -/
def reportEntry (sym : String) (info : CandidateInfo) : ReportEntry :=
  { sym := sym
    start_spread := info.start_spread
    min_spread := info.min_spread
    max_spread := info.max_spread
    crossings := info.osc_count
    samples := info.samples
    shown_timestamps := lastUpTo8 info.osc_timestamps }

/-! ## Helper lemmas -/

theorem char_toNat_ofNat {n : Nat} (h : n < 55296) : (Char.ofNat n).toNat = n := by
  have hv : Nat.isValidChar n := Or.inl h
  rw [Char.ofNat, dif_pos hv]
  simp [Char.toNat, Char.ofNatAux, UInt32.toNat]

theorem toUpper_idem (c : Char) : Char.toUpper (Char.toUpper c) = Char.toUpper c := by
  unfold Char.toUpper
  by_cases h : 97 ≤ c.toNat ∧ c.toNat ≤ 122
  · simp only [ge_iff_le, if_pos h]
    have h2 : (Char.ofNat (c.toNat - 32)).toNat = c.toNat - 32 := char_toNat_ofNat (by omega)
    rw [if_neg (by omega)]
  · simp only [ge_iff_le, if_neg h]

theorem pyUpper_idem (s : String) : pyUpper (pyUpper s) = pyUpper s := by
  unfold pyUpper
  simp [List.map_map, Function.comp_def, toUpper_idem]

theorem pyUpper_dropLast (s : String) : pyUpper (pyDropLast s) = pyDropLast (pyUpper s) := by
  unfold pyUpper pyDropLast
  simp

theorem pyUpper_eq_empty_iff (s : String) : pyUpper s = "" ↔ s = "" := by
  constructor
  · intro h
    have hd : (pyUpper s).data = [] := by rw [h]
    have : s.data = [] := by
      simpa [pyUpper] using hd
    rw [show ("" : String) = ⟨[]⟩ from rfl]
    cases s
    exact congrArg String.mk this
  · intro h
    rw [h]
    rfl

/-- The output of `normalize` is a fixed point of uppercasing. -/
theorem normalize_pyUpper_fixed (s : String) : pyUpper (normalize s) = normalize s := by
  unfold normalize
  by_cases he : s = ""
  · rw [if_pos he, he]
    rfl
  · rw [if_neg he]
    by_cases h1 : pyEndsWith (pyUpper s) "USDTM"
    · simp only [h1, if_true, pyUpper_dropLast, pyUpper_idem]
    · by_cases h2 : pyEndsWith (pyUpper s) "USDTP"
      · simp only [h1, h2, if_true, if_false, Bool.false_eq_true, pyUpper_dropLast, pyUpper_idem]
      · by_cases h3 : pyEndsWith (pyUpper s) "M"
        · simp only [h1, h2, h3, if_true, if_false, Bool.false_eq_true, pyUpper_dropLast,
            pyUpper_idem]
        · simp only [h1, h2, h3, if_false, Bool.false_eq_true, pyUpper_idem]

/-- A string that is uppercase-fixed and carries none of the three
recognized suffixes is a fixed point of `normalize`. -/
theorem normalize_fixed (t : String) (hup : pyUpper t = t)
    (h1 : pyEndsWith t "USDTM" = false) (h2 : pyEndsWith t "USDTP" = false)
    (h3 : pyEndsWith t "M" = false) : normalize t = t := by
  unfold normalize
  by_cases he : t = ""
  · rw [if_pos he]
  · rw [if_neg he]
    simp only [hup, h1, h2, h3, Bool.false_eq_true, if_false]

theorem pyAbs_eq_abs (q : ℚ) : pyAbs q = |q| := by
  unfold pyAbs
  by_cases h : q < 0
  · rw [if_pos h, abs_of_neg h]
  · rw [if_neg h, abs_of_nonneg (le_of_not_lt h)]

theorem get_binance_price_pos (r : Option TickerResp) (p : ℚ × ℚ)
    (h : get_binance_price r = some p) : 0 < p.1 ∧ 0 < p.2 := by
  cases r with
  | none => simp [get_binance_price] at h
  | some rr =>
    simp only [get_binance_price] at h
    by_cases hs : rr.status ≠ 200
    · rw [if_pos hs] at h
      cases h
    · rw [if_neg hs] at h
      by_cases hba : orFloat rr.bidPrice 0 ≤ 0 ∨ orFloat rr.askPrice 0 ≤ 0
      · rw [if_pos hba] at h
        cases h
      · rw [if_neg hba] at h
        injection h with h2
        subst h2
        push_neg at hba
        exact ⟨hba.1, hba.2⟩

theorem get_kucoin_price_once_pos (r : Option KucoinResp) (p : ℚ × ℚ)
    (h : get_kucoin_price_once r = some p) : 0 < p.1 ∧ 0 < p.2 := by
  cases r with
  | none => simp [get_kucoin_price_once] at h
  | some rr =>
    simp only [get_kucoin_price_once] at h
    by_cases hs : rr.status ≠ 200
    · rw [if_pos hs] at h
      cases h
    · rw [if_neg hs] at h
      by_cases hba : orFloat rr.bestBidPrice (orFloat rr.bid 0) ≤ 0 ∨
          orFloat rr.bestAskPrice (orFloat rr.ask 0) ≤ 0
      · rw [if_pos hba] at h
        cases h
      · rw [if_neg hba] at h
        injection h with h2
        subst h2
        push_neg at hba
        exact ⟨hba.1, hba.2⟩

theorem kucoinStore_pos (acc : String → Option Quote)
    (hacc : ∀ k q, acc k = some q → 0 < q.bid ∧ 0 < q.ask)
    (sr : String × Option KucoinResp) :
    ∀ k q, kucoinStore acc sr k = some q → 0 < q.bid ∧ 0 < q.ask := by
  intro k q h
  unfold kucoinStore at h
  cases hf : get_kucoin_price_once sr.2 with
  | none =>
    simp only [hf] at h
    exact hacc k q h
  | some p =>
    simp only [hf] at h
    by_cases hba : p.1 ≠ 0 ∧ p.2 ≠ 0
    · rw [if_pos hba] at h
      by_cases hk : k = sr.1
      · rw [if_pos hk] at h
        injection h with h2
        have hp := get_kucoin_price_once_pos sr.2 p hf
        rw [← h2]
        exact ⟨hp.1, hp.2⟩
      · rw [if_neg hk] at h
        exact hacc k q h
    · rw [if_neg hba] at h
      exact hacc k q h

theorem kucoin_fold_pos (resps : List (String × Option KucoinResp)) :
    ∀ (acc : String → Option Quote),
      (∀ k q, acc k = some q → 0 < q.bid ∧ 0 < q.ask) →
      ∀ k q, resps.foldl kucoinStore acc k = some q → 0 < q.bid ∧ 0 < q.ask := by
  induction resps with
  | nil => exact fun acc hacc => hacc
  | cons hd tl ih =>
    intro acc hacc
    exact ih (kucoinStore acc hd) (kucoinStore_pos acc hacc hd)

theorem threaded_kucoin_prices_pos (resps : List (String × Option KucoinResp))
    (k : String) (q : Quote) (h : threaded_kucoin_prices resps k = some q) :
    0 < q.bid ∧ 0 < q.ask :=
  kucoin_fold_pos resps (fun _ => none) (fun _ _ hq => by simp at hq) k q h

/-! ## Claim theorems -/

/-- C3, counterexample: symbol normalization is not idempotent for every
input string.  `normalize "MM" = "M"` (the trailing `"M"` is stripped),
but normalizing the result strips again: `normalize "M" = ""`. -/
theorem C3_counterexample :
    normalize "MM" = "M" ∧ normalize (normalize "MM") = "" ∧ ("" : String) ≠ "M" := by
  refine ⟨by decide, by decide, by decide⟩

/-- C3, amended: normalization is case-insensitive —
`normalize "btcusdtm" = normalize "BTCUSDT"`, and in general
`normalize (pyUpper s) = normalize s` — and it is idempotent on every
input whose normalized form does not itself end in one of the stripped
suffixes `"USDTM"`, `"USDTP"`, `"M"`; it is not idempotent in general
(see the counterexample). -/
theorem C3_normalize_case_insensitive_conditional_idempotent :
    normalize "btcusdtm" = normalize "BTCUSDT" ∧
    (∀ s : String, normalize (pyUpper s) = normalize s) ∧
    (∀ s : String,
      pyEndsWith (normalize s) "USDTM" = false →
      pyEndsWith (normalize s) "USDTP" = false →
      pyEndsWith (normalize s) "M" = false →
      normalize (normalize s) = normalize s) := by
  refine ⟨by decide, ?_, ?_⟩
  · intro s
    unfold normalize
    by_cases he : s = ""
    · subst he
      decide
    · have hne : pyUpper s ≠ "" := fun h => he ((pyUpper_eq_empty_iff s).mp h)
      rw [if_neg hne, if_neg he]
      simp only [pyUpper_idem]
  · intro s h1 h2 h3
    exact normalize_fixed _ (normalize_pyUpper_fixed s) h1 h2 h3

/-- C3, witness for the amended theorem at `s = "BTCUSDT"`. -/
theorem C3_witness :
    normalize (normalize "BTCUSDT") = normalize "BTCUSDT" :=
  C3_normalize_case_insensitive_conditional_idempotent.2.2 "BTCUSDT"
    (by decide) (by decide) (by decide)

/-- C2, counterexample: a negative KuCoin price does not make the spread
absent.  With Binance bid/ask `100/100`, KuCoin bid `1` and KuCoin ask
`-50`, the guard passes (only zero values and non-positive Binance prices
are checked) and the function returns `-150`, not `absent`. -/
theorem C2_counterexample :
    ((-50 : ℚ) ≤ 0) ∧ calculate_spread 100 100 1 (-50) = some (-150) := by
  constructor
  · norm_num
  · norm_num [calculate_spread]

/-- C2, amended: the spread calculation returns `absent` whenever any
price is zero or a Binance price is non-positive, and any returned value
was computed with strictly positive Binance denominators (so no division
by zero or non-positive denominator ever occurs); a non-positive KuCoin
bid or ask, however, is not by itself rejected. -/
theorem C2_spread_guard :
    (∀ bb ba kb ka : ℚ,
      bb = 0 ∨ ba = 0 ∨ kb = 0 ∨ ka = 0 ∨ ba ≤ 0 ∨ bb ≤ 0 →
      calculate_spread bb ba kb ka = none) ∧
    (∀ bb ba kb ka v : ℚ, calculate_spread bb ba kb ka = some v → 0 < ba ∧ 0 < bb) := by
  constructor
  · intro bb ba kb ka h
    unfold calculate_spread
    rw [if_pos h]
  · intro bb ba kb ka v h
    unfold calculate_spread at h
    by_cases hg : bb = 0 ∨ ba = 0 ∨ kb = 0 ∨ ka = 0 ∨ ba ≤ 0 ∨ bb ≤ 0
    · rw [if_pos hg] at h
      exact absurd h (by simp)
    · push_neg at hg
      exact ⟨hg.2.2.2.2.1, hg.2.2.2.2.2⟩

/-- C2, witness: a non-positive Binance ask makes the result absent. -/
theorem C2_witness : calculate_spread 100 (-5) 100 100 = none :=
  C2_spread_guard.1 100 (-5) 100 100 (by norm_num)

/-- C4: the spread sign convention.  With `binAsk = 100`, `kuBid = 100.3`
(and `binBid = kuAsk = 100`) the result is exactly `+0.3`; with
`binBid = 100`, `kuAsk = 99.7` it is exactly `-0.3`; with both sides at
zero it is absent; and in general, for positive Binance prices and
nonzero KuCoin prices, the result is `pos` when `pos > ε`, else `neg`
when `neg < -ε`, else absent, with `ε = 0.0001` — hence at most one side
is reported per call. -/
theorem C4_spread_sign_convention :
    calculate_spread 100 100 (1003/10) 100 = some (3/10) ∧
    calculate_spread 100 100 100 (997/10) = some (-(3/10)) ∧
    calculate_spread 100 100 100 100 = none ∧
    (∀ bb ba kb ka : ℚ, 0 < bb → 0 < ba → kb ≠ 0 → ka ≠ 0 →
      calculate_spread bb ba kb ka =
        (if ((kb - ba) / ba) * 100 > 1/10000 then some (((kb - ba) / ba) * 100)
         else if ((ka - bb) / bb) * 100 < -(1/10000) then some (((ka - bb) / bb) * 100)
         else none)) := by
  refine ⟨by norm_num [calculate_spread], by norm_num [calculate_spread],
    by norm_num [calculate_spread], ?_⟩
  intro bb ba kb ka hbb hba hkb hka
  have hg : ¬(bb = 0 ∨ ba = 0 ∨ kb = 0 ∨ ka = 0 ∨ ba ≤ 0 ∨ bb ≤ 0) := by
    push_neg
    exact ⟨ne_of_gt hbb, ne_of_gt hba, hkb, hka, hba, hbb⟩
  unfold calculate_spread
  rw [if_neg hg]

/-- C4, witness: the general conditional form applied at the first
concrete example. -/
theorem C4_witness :
    calculate_spread 100 100 (1003/10) 100 =
      (if (((1003/10 : ℚ) - 100) / 100) * 100 > 1/10000 then
        some ((((1003/10 : ℚ) - 100) / 100) * 100)
       else if (((100 : ℚ) - 100) / 100) * 100 < -(1/10000) then
        some ((((100 : ℚ) - 100) / 100) * 100)
       else none) :=
  C4_spread_sign_convention.2.2.2 100 100 (1003/10) 100
    (by norm_num) (by norm_num) (by norm_num) (by norm_num)

/-- C6: shortlisting selects exactly the symbols whose spread magnitude
reaches `SCAN_THRESHOLD`: the boundary is inclusive (a spread of exactly
the threshold is included), `threshold - 1e-9` is excluded, an absent
spread is excluded, and in general a sample is shortlisted precisely when
its absolute value is at least the threshold. -/
theorem C6_shortlist_boundary :
    shortlisted (some SCAN_THRESHOLD) = true ∧
    shortlisted (some (SCAN_THRESHOLD - 1/1000000000)) = false ∧
    shortlisted none = false ∧
    ∀ s : ℚ, shortlisted (some s) = decide (SCAN_THRESHOLD ≤ |s|) := by
  refine ⟨?_, ?_, rfl, ?_⟩
  · norm_num [shortlisted, SCAN_THRESHOLD, pyAbs]
  · norm_num [shortlisted, SCAN_THRESHOLD, pyAbs]
  · intro s
    simp [shortlisted, pyAbs_eq_abs]

/-- C5, counterexample: the Binance batch book fetch stores quotes with
no positivity check — an entry whose bid parses as `0` is stored as-is,
so not every stored quote has a strictly positive bid. -/
theorem C5_counterexample :
    get_binance_book [⟨"XUSDT", some 0, some 5⟩] "XUSDT" = some ⟨0, 5⟩ ∧
    ¬ (0 : ℚ) < 0 := by
  constructor
  · norm_num [get_binance_book]
  · norm_num

/-- C5, amended: the per-symbol quote fetches (`get_binance_price`,
`get_kucoin_price_once`) and the KuCoin batch collection only ever
produce/store quotes with strictly positive bid and ask; the Binance
batch book fetch, however, stores whatever parses (see the
counterexample). -/
theorem C5_positive_quotes_per_symbol_fetches :
    (∀ r p, get_binance_price r = some p → 0 < p.1 ∧ 0 < p.2) ∧
    (∀ r p, get_kucoin_price_once r = some p → 0 < p.1 ∧ 0 < p.2) ∧
    (∀ resps k q, threaded_kucoin_prices resps k = some q → 0 < q.bid ∧ 0 < q.ask) :=
  ⟨get_binance_price_pos, get_kucoin_price_once_pos, threaded_kucoin_prices_pos⟩

/-- C5, witness: a concrete KuCoin batch stores the quote (3, 4), and the
amended theorem yields its positivity. -/
theorem C5_witness :
    threaded_kucoin_prices [("A", some ⟨200, some 3, none, some 4, none⟩)] "A" =
      some ⟨3, 4⟩ ∧ (0 < (3 : ℚ) ∧ 0 < (4 : ℚ)) :=
  ⟨by norm_num [threaded_kucoin_prices, kucoinStore, get_kucoin_price_once, orFloat],
   C5_positive_quotes_per_symbol_fetches.2.2 [("A", some ⟨200, some 3, none, some 4, none⟩)]
     "A" ⟨3, 4⟩
     (by norm_num [threaded_kucoin_prices, kucoinStore, get_kucoin_price_once, orFloat])⟩

/-- C1, counterexample: the code does not do quantized movement counting
against a moving reference point.  A candidate shortlisted at spread
`0.20` that samples `1.35` in one tick has its count incremented by `1`
(rising-edge crossing of the fixed `±0.5` threshold), not by
`floor(|1.35 - 0.20| / 0.5) = 2` as the claim states; no reference point
exists in the state at all. -/
theorem C1_counterexample :
    (mkCandidate "BTCUSDTM" (2/10)).osc_count = 0 ∧
    (updateCandidate (mkCandidate "BTCUSDTM" (2/10)) "t1" (135/100)).osc_count = 1 ∧
    (1 : ℕ) ≠ 2 := by
  refine ⟨rfl, ?_, by norm_num⟩
  norm_num [updateCandidate, mkCandidate, pyAbs, OSCILLATION_THRESHOLD]

/-- C1, amended: movement counting is rising-edge against the fixed
oscillation threshold `0.5`, not quantized against a moving reference: a
tick with valid sample `S` increments the count by exactly `1` when
`|S| ≥ 0.5` and the previous state was inside (`last_was_outside` false),
and by `0` otherwise; in particular, a candidate with shortlist spread
`0.20` that samples `1.35` gains exactly one count. -/
theorem C1_movement_counting_rising_edge :
    (∀ info ts s, (updateCandidate info ts s).osc_count =
      info.osc_count +
        (if OSCILLATION_THRESHOLD ≤ pyAbs s ∧ info.last_was_outside = false
         then 1 else 0)) ∧
    (updateCandidate (mkCandidate "BTCUSDTM" (2/10)) "t1" (135/100)).osc_count =
      (mkCandidate "BTCUSDTM" (2/10)).osc_count + 1 := by
  constructor
  · intro info ts s
    have h : (updateCandidate info ts s).osc_count =
        info.osc_count +
          (if (decide (pyAbs s ≥ OSCILLATION_THRESHOLD) && ! info.last_was_outside) = true
           then 1 else 0) := rfl
    rw [h]
    congr 1
    by_cases ho : OSCILLATION_THRESHOLD ≤ pyAbs s
    · cases hl : info.last_was_outside
      · simp [ho, hl, ge_iff_le]
      · simp [ho, hl, ge_iff_le]
    · simp [ho, ge_iff_le]
  · norm_num [updateCandidate, mkCandidate, pyAbs, OSCILLATION_THRESHOLD]

/-- C7: a tick with no valid sample for a candidate — a missing Binance
quote, a missing KuCoin quote, or an absent spread — leaves the entire
candidate record unchanged (hence in particular its sample count, min,
max and crossing count). -/
theorem C7_no_signal_frame :
    (∀ info ts (k : Option Quote), tickCandidate info ts none k = info) ∧
    (∀ info ts (b : Option Quote), tickCandidate info ts b none = info) ∧
    (∀ info ts bq kq, calculate_spread bq.bid bq.ask kq.bid kq.ask = none →
      tickCandidate info ts (some bq) (some kq) = info) := by
  refine ⟨?_, ?_, ?_⟩
  · intro info ts k
    cases k <;> rfl
  · intro info ts b
    cases b <;> rfl
  · intro info ts bq kq h
    simp only [tickCandidate, h]

/-- C7, witness: equal quotes on both books give an absent spread, and
the tick leaves the candidate untouched. -/
theorem C7_witness :
    tickCandidate (mkCandidate "X" (1/4)) "t" (some ⟨100, 100⟩) (some ⟨100, 100⟩) =
      mkCandidate "X" (1/4) :=
  C7_no_signal_frame.2.2 (mkCandidate "X" (1/4)) "t" ⟨100, 100⟩ ⟨100, 100⟩
    (by norm_num [calculate_spread])

/-- C8: the crossing count is monotonically non-decreasing under single
updates, whole ticks, and any run of samples; and the report prints the
true `osc_count` while truncating only the displayed timestamp log to the
last 8 entries. -/
theorem C8_crossing_count_monotone_and_report :
    (∀ info ts s, info.osc_count ≤ (updateCandidate info ts s).osc_count) ∧
    (∀ info ts b k, info.osc_count ≤ (tickCandidate info ts b k).osc_count) ∧
    (∀ info ts l, info.osc_count ≤ (runSamples info ts l).osc_count) ∧
    (∀ sym info, (reportEntry sym info).crossings = info.osc_count ∧
      (reportEntry sym info).shown_timestamps = lastUpTo8 info.osc_timestamps) := by
  have hstep : ∀ info ts s, info.osc_count ≤ (updateCandidate info ts s).osc_count :=
    fun info ts s => Nat.le_add_right _ _
  have hrun : ∀ (l : List ℚ) info ts, info.osc_count ≤ (runSamples info ts l).osc_count := by
    intro l
    induction l with
    | nil => intro info ts; exact Nat.le.refl
    | cons hd tl ih =>
      intro info ts
      exact le_trans (hstep info ts hd) (ih (updateCandidate info ts hd) ts)
  refine ⟨hstep, ?_, fun info ts l => hrun l info ts, fun sym info => ⟨rfl, rfl⟩⟩
  intro info ts b k
  cases b with
  | none => exact Nat.le.refl
  | some bq =>
    cases k with
    | none => exact Nat.le.refl
    | some kq =>
      simp only [tickCandidate]
      cases hs : calculate_spread bq.bid bq.ask kq.bid kq.ask with
      | none => exact Nat.le.refl
      | some s => exact hstep info ts s

/-- C9: at creation `min_spread = start_spread = max_spread`, so the
bracket `min_spread ≤ start_spread ≤ max_spread` holds; every tick leaves
`start_spread` unchanged and preserves the bracket (the minimum only ever
moves down, the maximum only up). -/
theorem C9_extrema_bracket_start :
    (∀ ku s, (mkCandidate ku s).min_spread ≤ (mkCandidate ku s).start_spread ∧
      (mkCandidate ku s).start_spread ≤ (mkCandidate ku s).max_spread) ∧
    (∀ info ts b k, (tickCandidate info ts b k).start_spread = info.start_spread) ∧
    (∀ info ts b k,
      info.min_spread ≤ info.start_spread → info.start_spread ≤ info.max_spread →
      (tickCandidate info ts b k).min_spread ≤ (tickCandidate info ts b k).start_spread ∧
      (tickCandidate info ts b k).start_spread ≤ (tickCandidate info ts b k).max_spread) := by
  have hustart : ∀ info ts s, (updateCandidate info ts s).start_spread = info.start_spread :=
    fun info ts s => rfl
  have humin : ∀ info ts s, (updateCandidate info ts s).min_spread =
      if s < info.min_spread then s else info.min_spread :=
    fun info ts s => rfl
  have humax : ∀ info ts s, (updateCandidate info ts s).max_spread =
      if s > info.max_spread then s else info.max_spread :=
    fun info ts s => rfl
  have hubr : ∀ info ts s, info.min_spread ≤ info.start_spread →
      info.start_spread ≤ info.max_spread →
      (updateCandidate info ts s).min_spread ≤ (updateCandidate info ts s).start_spread ∧
      (updateCandidate info ts s).start_spread ≤ (updateCandidate info ts s).max_spread := by
    intro info ts s h1 h2
    rw [hustart, humin, humax]
    constructor
    · by_cases hm : s < info.min_spread
      · rw [if_pos hm]
        exact le_trans (le_of_lt hm) h1
      · rw [if_neg hm]
        exact h1
    · by_cases hm : s > info.max_spread
      · rw [if_pos hm]
        exact le_trans h2 (le_of_lt hm)
      · rw [if_neg hm]
        exact h2
  have htick : ∀ info ts (b k : Option Quote),
      tickCandidate info ts b k = info ∨
      ∃ s, tickCandidate info ts b k = updateCandidate info ts s := by
    intro info ts b k
    cases b with
    | none => exact Or.inl rfl
    | some bq =>
      cases k with
      | none => exact Or.inl rfl
      | some kq =>
        simp only [tickCandidate]
        cases hs : calculate_spread bq.bid bq.ask kq.bid kq.ask with
        | none => exact Or.inl rfl
        | some s => exact Or.inr ⟨s, rfl⟩
  refine ⟨fun ku s => ⟨le_refl _, le_refl _⟩, ?_, ?_⟩
  · intro info ts b k
    rcases htick info ts b k with h | ⟨s, h⟩
    · rw [h]
    · rw [h, hustart]
  · intro info ts b k h1 h2
    rcases htick info ts b k with h | ⟨s, h⟩
    · rw [h]
      exact ⟨h1, h2⟩
    · rw [h]
      exact hubr info ts s h1 h2

/-- C9, witness: a concrete candidate and tick, with the bracket
hypotheses discharged by reflexivity of the seeded record. -/
theorem C9_witness :
    (tickCandidate (mkCandidate "X" (1/4)) "t" (some ⟨100, 101⟩) (some ⟨102, 103⟩)).min_spread ≤
      (tickCandidate (mkCandidate "X" (1/4)) "t" (some ⟨100, 101⟩) (some ⟨102, 103⟩)).start_spread ∧
    (tickCandidate (mkCandidate "X" (1/4)) "t" (some ⟨100, 101⟩) (some ⟨102, 103⟩)).start_spread ≤
      (tickCandidate (mkCandidate "X" (1/4)) "t" (some ⟨100, 101⟩) (some ⟨102, 103⟩)).max_spread :=
  C9_extrema_bracket_start.2.2 (mkCandidate "X" (1/4)) "t" (some ⟨100, 101⟩)
    (some ⟨102, 103⟩) (le_refl _) (le_refl _)

/-- C10: a crossing is counted exactly on an inside-to-outside
transition of the oscillation threshold: each valid sample increments the
count by at most one; an update from an outside state never increments; a
sample strictly inside the threshold never increments (whatever the
previous state); an outside sample taken from an inside state increments
by exactly one; a candidate whose shortlisting spread is at or above the
threshold is seeded outside; from an outside seed, a run of samples that
all stay at or above the threshold never increments the count; and from
an outside seed, a run of outside samples followed by one sample that
falls strictly inside still never increments the count while it leaves
the state inside — so the next outside sample, and only it, counts. -/
theorem C10_crossing_inside_outside_transition :
    (∀ info ts s, (updateCandidate info ts s).osc_count ≤ info.osc_count + 1) ∧
    (∀ info ts s, info.last_was_outside = true →
      (updateCandidate info ts s).osc_count = info.osc_count) ∧
    (∀ info ts s, pyAbs s < OSCILLATION_THRESHOLD →
      (updateCandidate info ts s).osc_count = info.osc_count) ∧
    (∀ info ts s, info.last_was_outside = false → OSCILLATION_THRESHOLD ≤ pyAbs s →
      (updateCandidate info ts s).osc_count = info.osc_count + 1) ∧
    (∀ ku q, OSCILLATION_THRESHOLD ≤ pyAbs q → (mkCandidate ku q).last_was_outside = true) ∧
    (∀ info ts l, info.last_was_outside = true →
      (∀ s ∈ l, OSCILLATION_THRESHOLD ≤ pyAbs s) →
      (runSamples info ts l).osc_count = info.osc_count ∧
      (runSamples info ts l).last_was_outside = true) ∧
    (∀ info ts (l : List ℚ) (t : ℚ), info.last_was_outside = true →
      (∀ s ∈ l, OSCILLATION_THRESHOLD ≤ pyAbs s) →
      pyAbs t < OSCILLATION_THRESHOLD →
      (runSamples info ts (l ++ [t])).osc_count = info.osc_count ∧
      (runSamples info ts (l ++ [t])).last_was_outside = false) := by
  have hlast : ∀ info ts s, (updateCandidate info ts s).last_was_outside =
      decide (pyAbs s ≥ OSCILLATION_THRESHOLD) := fun info ts s => rfl
  have hcount : ∀ info ts s, (updateCandidate info ts s).osc_count =
      info.osc_count +
        (if (decide (pyAbs s ≥ OSCILLATION_THRESHOLD) && ! info.last_was_outside) = true
         then 1 else 0) := fun info ts s => rfl
  have hout : ∀ info ts s, info.last_was_outside = true →
      (updateCandidate info ts s).osc_count = info.osc_count := by
    intro info ts s hl
    rw [hcount, hl]
    simp
  have hinside : ∀ info ts s, pyAbs s < OSCILLATION_THRESHOLD →
      (updateCandidate info ts s).osc_count = info.osc_count := by
    intro info ts s hs
    have hd : decide (pyAbs s ≥ OSCILLATION_THRESHOLD) = false :=
      decide_eq_false (not_le.mpr hs)
    rw [hcount, hd]
    simp
  have hedge : ∀ info ts s, info.last_was_outside = false →
      OSCILLATION_THRESHOLD ≤ pyAbs s →
      (updateCandidate info ts s).osc_count = info.osc_count + 1 := by
    intro info ts s hl hs
    have hd : decide (pyAbs s ≥ OSCILLATION_THRESHOLD) = true := decide_eq_true hs
    rw [hcount, hd, hl]
    simp
  have hrun : ∀ (l : List ℚ) info ts, info.last_was_outside = true →
      (∀ s ∈ l, OSCILLATION_THRESHOLD ≤ pyAbs s) →
      (runSamples info ts l).osc_count = info.osc_count ∧
      (runSamples info ts l).last_was_outside = true := by
    intro l
    induction l with
    | nil => exact fun info ts hl _ => ⟨rfl, hl⟩
    | cons hd tl ih =>
      intro info ts hl hall
      have hd_out : (updateCandidate info ts hd).last_was_outside = true := by
        rw [hlast]
        exact decide_eq_true (hall hd (List.mem_cons_self hd tl))
      have step := ih (updateCandidate info ts hd) ts hd_out
        (fun s hs => hall s (List.mem_cons_of_mem hd hs))
      exact ⟨step.1.trans (hout info ts hd hl), step.2⟩
  have hdip : ∀ info ts (l : List ℚ) (t : ℚ), info.last_was_outside = true →
      (∀ s ∈ l, OSCILLATION_THRESHOLD ≤ pyAbs s) →
      pyAbs t < OSCILLATION_THRESHOLD →
      (runSamples info ts (l ++ [t])).osc_count = info.osc_count ∧
      (runSamples info ts (l ++ [t])).last_was_outside = false := by
    intro info ts l t hl hall ht
    have hsplit : runSamples info ts (l ++ [t]) =
        updateCandidate (runSamples info ts l) ts t := by
      unfold runSamples
      rw [List.foldl_append]
      rfl
    have hr := hrun l info ts hl hall
    constructor
    · rw [hsplit, hinside _ ts t ht]
      exact hr.1
    · rw [hsplit, hlast]
      exact decide_eq_false (not_le.mpr ht)
  refine ⟨?_, hout, hinside, hedge, ?_, fun info ts l => hrun l info ts,
    fun info ts l t => hdip info ts l t⟩
  · intro info ts s
    rw [hcount]
    have hle : (if (decide (pyAbs s ≥ OSCILLATION_THRESHOLD) && ! info.last_was_outside) = true
        then 1 else 0) ≤ 1 := by
      split
      · exact Nat.le.refl
      · exact Nat.zero_le _
    exact Nat.add_le_add_left hle _
  · intro ku q hq
    exact decide_eq_true hq

/-- C10, witness: a candidate seeded at spread `0.6` (outside the `0.5`
threshold), after an outside sample `0.7` followed by a dip inside to
`0.2`, still has no crossing counted and its state is inside. -/
theorem C10_witness :
    (runSamples (mkCandidate "X" (6/10)) "t" [7/10, 2/10]).osc_count =
      (mkCandidate "X" (6/10)).osc_count ∧
    (runSamples (mkCandidate "X" (6/10)) "t" [7/10, 2/10]).last_was_outside = false :=
  C10_crossing_inside_outside_transition.2.2.2.2.2.2 (mkCandidate "X" (6/10)) "t"
    [7/10] (2/10)
    (by norm_num [mkCandidate, pyAbs, OSCILLATION_THRESHOLD])
    (by
      intro s hs
      rw [List.mem_singleton] at hs
      subst hs
      norm_num [pyAbs, OSCILLATION_THRESHOLD])
    (by norm_num [pyAbs, OSCILLATION_THRESHOLD])

end SpreadBot
